import Mathlib

/-!
# Verification of the SIWN (Sign-In With Neo) starter kit

Shallow embedding of the repository's auth core:
* `supabase/functions/auth/lib/utils.ts` — `isDomainAllowed`
* `supabase/functions/auth/lib/siwn.ts` — `SIWNMessage` (prepareMessage /
  fromMessage / validate)
* `supabase/functions/auth/lib/crypto.ts` — `n3MessageFormat`,
  `verifySignature`, `getAddressFromPublicKey`
* `supabase/functions/auth/index.ts` — the `POST /login` orchestration and
  nonce consumption against the `private.auth_nonces` table
  (`supabase/migrations/..._setup.sql`).

JavaScript strings are modelled as Lean `String` (a wrapper around
`List Char`), with the JS string operations (`split`, `slice`,
`startsWith`, `endsWith`, `substring`, `trim`, template concatenation)
re-implemented over the underlying character lists.  JS `number` values
that can be `NaN` (the result of `parseInt`) are modelled as `Option Int`
with `none` standing for `NaN`.  Platform services (SHA-256, UTF-8
encoding, `Date` parsing of the ISO strings this system exchanges,
`parseInt`) are given executable models; external collaborators
(elliptic-curve verification, the Supabase identity store, the Postgres
row store) are parameters of the embedded functions.
-/

namespace Siwn

/-- Decidable equality for `Except`, so concrete runs can be settled by
`decide`. -/
instance exceptDecEq {ε α : Type} [DecidableEq ε] [DecidableEq α] :
    DecidableEq (Except ε α)
  | .ok a, .ok b =>
    if h : a = b then isTrue (by rw [h])
    else isFalse (fun hc => h (by injection hc))
  | .ok _, .error _ => isFalse (fun hc => Except.noConfusion hc)
  | .error _, .ok _ => isFalse (fun hc => Except.noConfusion hc)
  | .error a, .error b =>
    if h : a = b then isTrue (by rw [h])
    else isFalse (fun hc => h (by injection hc))

/-! ## JavaScript string primitives (over `List Char`) -/

/-- `String.mk` is a left inverse of `String.data`. -/
theorem string_mk_data (s : String) : String.mk s.data = s := rfl

/-- JS `s.split(sep)` for a one-character separator, on character lists.
`splitChar c l` always returns a non-empty list of chunks. -/
def splitChar (c : Char) : List Char → List (List Char)
  | [] => [[]]
  | x :: xs =>
    if x = c then [] :: splitChar c xs
    else (splitChar c xs).modifyHead (fun h => x :: h)

/-- JS `array.join(sep)` for a one-character separator, on character
lists. -/
def joinChar (c : Char) : List (List Char) → List Char
  | [] => []
  | [l] => l
  | l :: l' :: ls => l ++ c :: joinChar c (l' :: ls)

/-- JS `message.split("\n")` on strings. -/
def jsSplitNl (s : String) : List String :=
  (splitChar '\n' s.data).map String.mk

/-- JS `lines.join("\n")` on strings. -/
def jsJoinNl (ls : List String) : String :=
  ⟨joinChar '\n' (ls.map String.data)⟩

/-- JS `s.split(",")` on strings. -/
def jsSplitComma (s : String) : List String :=
  (splitChar ',' s.data).map String.mk

/-- JS `s.startsWith(t)`. -/
def jsStartsWith (s t : String) : Bool :=
  t.data.isPrefixOf s.data

/-- JS `s.endsWith(t)`. -/
def jsEndsWith (s t : String) : Bool :=
  t.data.isSuffixOf s.data

/-- JS `s.slice(n)` for `n ≥ 0`: drop the first `n` characters. -/
def jsDropLeft (s : String) (n : Nat) : String :=
  ⟨s.data.drop n⟩

/-- JS `s.slice(0, -n)` (and the capture of a regex `^(.+)suffix$`):
drop the last `n` characters. -/
def jsDropRight (s : String) (n : Nat) : String :=
  ⟨s.data.take (s.data.length - n)⟩

/-- JS `s.substring(0, n)`: the first `n` characters. -/
def jsTake (s : String) (n : Nat) : String :=
  ⟨s.data.take n⟩

/-- JS `s.trim()`: strip leading and trailing whitespace. -/
def jsTrim (s : String) : String :=
  ⟨((s.data.dropWhile Char.isWhitespace).reverse.dropWhile
      Char.isWhitespace).reverse⟩

/-- JS truthiness of an optional string: `undefined` and `""` are falsy. -/
def jsTruthy (o : Option String) : Bool :=
  match o with
  | none => false
  | some s => !(s == "")

/-! ## JS numbers: `parseInt(v, 10)` and number-to-string

`chainId` is a JS `number`; the only number values this code ever puts
there are integers and `NaN` (from `parseInt`), modelled as
`Option Int` with `none` for `NaN`. -/

/-- The decimal digit character for `d < 10`. -/
def digitChar (d : Nat) : Char :=
  Char.ofNat (48 + d)

/-- Decimal digits of `n`, least significant first, with explicit fuel
(structural recursion, so that concrete evaluation reduces in the
kernel). -/
def natToDigitsRevFuel : Nat → Nat → List Char
  | 0, _ => []
  | fuel + 1, n =>
    if n < 10 then [digitChar n]
    else digitChar (n % 10) :: natToDigitsRevFuel fuel (n / 10)

/-- Decimal digits of `n`, least significant first. -/
def natToDigitsRev (n : Nat) : List Char :=
  natToDigitsRevFuel (n + 1) n

/-- Decimal digits of `n`, most significant first. -/
def natToDigits (n : Nat) : List Char :=
  (natToDigitsRev n).reverse

/-- JS number-to-string for an integer value (`${n}` in a template). -/
def intToString (i : Int) : String :=
  if i < 0 then ⟨'-' :: natToDigits (-i).toNat⟩ else ⟨natToDigits i.toNat⟩

/-- JS string interpolation of a possibly-`NaN` number. -/
def numToString (o : Option Int) : String :=
  match o with
  | none => "NaN"
  | some i => intToString i

/-- Value of a list of decimal digit characters, most significant
first. -/
def digitsVal (ds : List Char) : Nat :=
  ds.foldl (fun a c => a * 10 + (c.toNat - 48)) 0

/-- The digit-prefix step of `parseInt`: the longest leading run of
decimal digits, `none` (`NaN`) when there is none. -/
def parseDigits (l : List Char) : Option Nat :=
  let ds := l.takeWhile Char.isDigit
  if ds.isEmpty then none else some (digitsVal ds)

/-- ECMAScript `parseInt(s, 10)`: skip leading whitespace, read an
optional sign, then the longest run of decimal digits (trailing
characters are ignored); `NaN` (`none`) when no digit is found. -/
def jsParseInt (s : String) : Option Int :=
  match s.data.dropWhile Char.isWhitespace with
  | '-' :: rest => (parseDigits rest).map (fun n => -(n : Int))
  | '+' :: rest => (parseDigits rest).map (fun n => (n : Int))
  | rest => (parseDigits rest).map (fun n => (n : Int))

theorem splitChar_ne_nil (c : Char) (l : List Char) : splitChar c l ≠ [] := by
  induction l with
  | nil => simp [splitChar]
  | cons x xs ih =>
    rw [splitChar]
    split
    · simp
    · rcases hs : splitChar c xs with _ | ⟨hd, t⟩
      · exact absurd hs ih
      · simp [List.modifyHead]

/-- First-occurrence split: `(before, after)` around the first occurrence
of `sep`; `(l, [])` when `sep` does not occur. -/
def splitFirstSep (sep : List Char) : List Char → List Char × List Char
  | [] => ([], [])
  | x :: xs =>
    if sep.isPrefixOf (x :: xs) then ([], (x :: xs).drop sep.length)
    else
      let r := splitFirstSep sep xs
      (x :: r.1, r.2)

/-- When the key contains no colon, the key/value split of
`key ++ ": " ++ value` recovers the pair. -/
theorem splitFirstSep_key (k v : List Char) (h : ':' ∉ k) :
    splitFirstSep [':', ' '] (k ++ ':' :: ' ' :: v) = (k, v) := by
  induction k with
  | nil =>
    rw [List.nil_append, splitFirstSep]
    rw [if_pos (by simp [List.isPrefixOf])]
    rfl
  | cons x xs ih =>
    have hx : x ≠ ':' := fun hx => h (by simp [hx])
    have hb : (':' == x) = false := by
      simp only [beq_eq_false_iff_ne, ne_eq]
      exact fun hcontra => hx hcontra.symm
    have hcond : ([':', ' '].isPrefixOf (x :: (xs ++ ':' :: ' ' :: v))) = false := by
      show ((':' == x) && ([' '].isPrefixOf (xs ++ ':' :: ' ' :: v))) = false
      rw [hb]
      rfl
    rw [List.cons_append, splitFirstSep, if_neg (by simp [hcond])]
    rw [ih (fun hx' => h (by simp [hx']))]

/-! ## JS `Date` model

`validate` compares `new Date(s)` values against `now`.  The dates this
system produces are ISO-8601 UTC strings (`toISOString` output,
`YYYY-MM-DDTHH:MM:SS.sssZ`); the model parses exactly that shape to epoch
milliseconds and maps every other string to `none` (`Invalid Date`,
i.e. `NaN`).  A comparison against an invalid date is `false`, as
`NaN < x` and `NaN > x` are in JS. -/

/-- Value of a concrete run of digit characters. -/
def digitsAt (cs : List Char) : Nat :=
  cs.foldl (fun a c => a * 10 + (c.toNat - 48)) 0

/-- Days from the Unix epoch to civil date `y-m-d` (Gregorian,
Hinnant's `days_from_civil`, truncating division as in C++). -/
def daysFromCivil (y m d : Int) : Int :=
  let y' := if m ≤ 2 then y - 1 else y
  let era := (if 0 ≤ y' then y' else y' - 399) / 400
  let yoe := y' - era * 400
  let mp := if 2 < m then m - 3 else m + 9
  let doy := (153 * mp + 2) / 5 + d - 1
  let doe := yoe * 365 + yoe / 4 - yoe / 100 + doy
  era * 146097 + doe - 719468

/-- Gregorian leap-year rule. -/
def isLeapYear (y : Nat) : Bool :=
  y % 4 == 0 && (y % 100 != 0 || y % 400 == 0)

/-- Number of days in month `m` of year `y`. -/
def daysInMonth (y m : Nat) : Nat :=
  if m == 2 then (if isLeapYear y then 29 else 28)
  else if m == 4 || m == 6 || m == 9 || m == 11 then 30
  else 31

/-- `new Date(s).valueOf()` for the ISO strings this system exchanges:
epoch milliseconds, or `none` for `Invalid Date`. -/
def jsDateParse (s : String) : Option Int :=
  match s.data with
  | [y1, y2, y3, y4, '-', m1, m2, '-', d1, d2, 'T',
     h1, h2, ':', i1, i2, ':', s1, s2, '.', f1, f2, f3, 'Z'] =>
    if ([y1, y2, y3, y4, m1, m2, d1, d2, h1, h2, i1, i2, s1, s2, f1, f2,
         f3].all Char.isDigit) then
      let y := digitsAt [y1, y2, y3, y4]
      let mo := digitsAt [m1, m2]
      let d := digitsAt [d1, d2]
      let h := digitsAt [h1, h2]
      let mi := digitsAt [i1, i2]
      let se := digitsAt [s1, s2]
      let ms := digitsAt [f1, f2, f3]
      if 1 ≤ mo && mo ≤ 12 && 1 ≤ d && d ≤ daysInMonth y mo
          && h ≤ 23 && mi ≤ 59 && se ≤ 59 then
        some ((((daysFromCivil y mo d) * 24 + h) * 60 + mi) * 60 * 1000
          + se * 1000 + ms)
      else none
    else none
  | _ => none

/-- The JS comparison `new Date(s) < now` (false on `Invalid Date`). -/
def jsDateLtNow (o : Option Int) (now : Int) : Bool :=
  match o with
  | none => false
  | some t => t < now

/-- The JS comparison `new Date(s) > now` (false on `Invalid Date`). -/
def jsDateGtNow (o : Option Int) (now : Int) : Bool :=
  match o with
  | none => false
  | some t => now < t

/-! ## ChallengeMessage — `SIWNMessage` (siwn.ts)

The class fields, with `chainId : Option Int` (`none` = `NaN`) and
`expirationTime : Option String` (`none` = `undefined`).  String fields
that `fromMessage` leaves unset (JS `undefined`) are modelled as `""`;
no claim distinguishes the two. -/

structure SIWNMessage where
  domain : String
  address : String
  statement : String
  uri : String
  version : String
  chainId : Option Int
  nonce : String
  issuedAt : String
  expirationTime : Option String
deriving DecidableEq, Repr

/-- The fixed tail of the title line. -/
def hdrSuffix : String := " wants you to sign in with your Neo account:"

/-- The line array built by `prepareMessage` (including the
`if (this.expirationTime)` push). -/
def siwnLines (m : SIWNMessage) : List String :=
  [m.domain ++ hdrSuffix,
   m.address,
   "",
   m.statement,
   "",
   "URI: " ++ m.uri,
   "Version: " ++ m.version,
   "Chain ID: " ++ numToString m.chainId,
   "Nonce: " ++ m.nonce,
   "Issued At: " ++ m.issuedAt]
  ++ (if jsTruthy m.expirationTime
      then ["Expiration Time: " ++ m.expirationTime.getD ""] else [])

/-- `SIWNMessage.prepareMessage()`: the structured text to be signed. -/
def prepareMessage (m : SIWNMessage) : String :=
  jsJoinNl (siwnLines m)

/-- The characters the ECMAScript `.` pattern never matches: the line
terminators `\n`, `\r`, U+2028 (LS) and U+2029 (PS). -/
def isLineTerminator (c : Char) : Bool :=
  c == '\n' || c == '\r' || c == '\u2028' || c == '\u2029'

/-- The title-line regex
`/^(.+) wants you to sign in with your Neo account:$/`: since the fixed
suffix has a fixed length, the decomposition is unique, so the line
matches iff it ends with the suffix, the greedy capture (everything
before the suffix) is non-empty, and — because `.` never matches a line
terminator — that capture contains no line terminator. -/
def headerDomain (line0 : String) : Option String :=
  if jsEndsWith line0 hdrSuffix
      && decide (hdrSuffix.data.length < line0.data.length)
      && !(jsDropRight line0 hdrSuffix.data.length).data.any isLineTerminator
  then some (jsDropRight line0 hdrSuffix.data.length)
  else none

/-- The `switch (key)` of the `fromMessage` field loop. -/
def kvBranch (m : SIWNMessage) (kv : List Char × List Char) : SIWNMessage :=
  if kv.1 = "URI".data then { m with uri := ⟨kv.2⟩ }
  else if kv.1 = "Version".data then { m with version := ⟨kv.2⟩ }
  else if kv.1 = "Chain ID".data then { m with chainId := jsParseInt ⟨kv.2⟩ }
  else if kv.1 = "Nonce".data then { m with nonce := ⟨kv.2⟩ }
  else if kv.1 = "Issued At".data then { m with issuedAt := ⟨kv.2⟩ }
  else if kv.1 = "Expiration Time".data then { m with expirationTime := some ⟨kv.2⟩ }
  else m

/-- One iteration of the `for (let i = 5; ...)` loop of `fromMessage`:
skip empty lines, split the line at the first `": "`, dispatch on the
key. -/
def parseKV (m : SIWNMessage) (line : String) : SIWNMessage :=
  if line.data = [] then m
  else kvBranch m (splitFirstSep [':', ' '] line.data)

/-- `SIWNMessage.fromMessage(message)`: throws (models as `.error`) iff
the title line does not match; otherwise reads the address from line 1,
the statement from line 3, and scans lines 5.. for `Key: value`
pairs. -/
def fromMessage (message : String) : Except String SIWNMessage :=
  let lines := jsSplitNl message
  match headerDomain (lines.headD "") with
  | none => .error "Invalid SIWN message: Header missing or malformed"
  | some domain =>
    let init : SIWNMessage :=
      ⟨domain, lines.getD 1 "", lines.getD 3 "", "", "", none, "", "", none⟩
    .ok ((lines.drop 5).foldl parseKV init)

/-- The four throw sites of `SIWNMessage.validate`, in source order. -/
inductive ValidateError where
  | domainMismatch
  | nonceMismatch
  | messageExpired
  | issuedInFuture
deriving DecidableEq, Repr

/-- `SIWNMessage.validate({domain?, nonce?, time})`.  `now` is the
`opts.time` value in epoch milliseconds.  Guards follow JS truthiness
(`opts.domain &&`, `opts.nonce &&`, `this.expirationTime &&`). -/
def validate (m : SIWNMessage) (optDomain optNonce : Option String)
    (now : Int) : Except ValidateError Unit :=
  if jsTruthy optDomain && !(m.domain == optDomain.getD "") then
    .error .domainMismatch
  else if jsTruthy optNonce && !(m.nonce == optNonce.getD "") then
    .error .nonceMismatch
  else if jsTruthy m.expirationTime
      && jsDateLtNow (jsDateParse (m.expirationTime.getD "")) now then
    .error .messageExpired
  else if jsDateGtNow (jsDateParse m.issuedAt) now then
    .error .issuedInFuture
  else .ok ()

/-! ### Round-trip machinery -/

/-- One pattern test of `isDomainAllowed` (the callback of `.some`). -/
def domainPatternTest (domain pat : String) : Bool :=
  if jsStartsWith pat "*." then
    jsEndsWith domain (jsDropLeft pat 1) || domain == jsDropLeft pat 2
  else if jsEndsWith pat ":*" then
    domain == jsDropRight pat 2 || jsStartsWith domain (jsDropRight pat 2 ++ ":")
  else
    domain == pat

/-- `isDomainAllowed(domain, allowedPatterns)` from `lib/utils.ts`. -/
def isDomainAllowed (domain : String) (allowedPatterns : List String) : Bool :=
  allowedPatterns.any (fun pat => domainPatternTest domain pat)

/-- The per-pattern matching rule exactly as the claim words it: exact
equality; a pattern `*.suffix` matches iff the domain ends with
`.suffix` or equals `suffix`; a pattern `p:*` matches iff the domain
equals `p` or starts with `p:`. -/
def claimPatternMatch (domain pat : String) : Bool :=
  if jsStartsWith pat "*." then
    jsEndsWith domain ("." ++ jsDropLeft pat 2) || domain == jsDropLeft pat 2
  else if jsEndsWith pat ":*" then
    domain == jsDropRight pat 2 || jsStartsWith domain (jsDropRight pat 2 ++ ":")
  else
    domain == pat

theorem jsDropLeft_star_dot (pat : String) (h : jsStartsWith pat "*." = true) :
    jsDropLeft pat 1 = "." ++ jsDropLeft pat 2 := by
  obtain ⟨l⟩ := pat
  simp only [jsStartsWith, List.isPrefixOf_iff_prefix] at h
  obtain ⟨t, ht⟩ := h
  have : l = '*' :: '.' :: t := by
    simpa using ht.symm
  subst this
  rfl

theorem domainPatternTest_eq_claim (domain pat : String) :
    domainPatternTest domain pat = claimPatternMatch domain pat := by
  unfold domainPatternTest claimPatternMatch
  by_cases h : jsStartsWith pat "*." = true
  · simp [h, jsDropLeft_star_dot pat h]
  · simp at h
    simp [h]

/-! ## Bytes, hex, UTF-8 -/

/-- Big-endian bytes of `num` in `size` bytes. -/
def natToBytesBE (size num : Nat) : List Nat :=
  (List.range size).map (fun i => (num >>> (8 * (size - 1 - i))) % 256)

/-- The lowercase hex digit characters. -/
def hexDigitChars : List Char := "0123456789abcdef".data

/-- Two lowercase hex characters of a byte. -/
def byteToHexChars (b : Nat) : List Char :=
  [hexDigitChars.getD (b / 16 % 16) '0', hexDigitChars.getD (b % 16) '0']

/-- Lowercase hex encoding of a byte list. -/
def bytesToHex (bs : List Nat) : String :=
  ⟨(bs.map byteToHexChars).flatten⟩

/-- Value of one hex digit character (0 for junk, as the claims never
feed junk hex). -/
def hexVal (c : Char) : Nat :=
  if c.isDigit then c.toNat - 48
  else if 'a' ≤ c && c ≤ 'f' then c.toNat - 87
  else if 'A' ≤ c && c ≤ 'F' then c.toNat - 55
  else 0

/-- Byte list of a hex string (dangling half-byte dropped). -/
def hexPairs : List Char → List Nat
  | c1 :: c2 :: rest => (hexVal c1 * 16 + hexVal c2) :: hexPairs rest
  | _ => []

/-- Hex decode. -/
def hexToBytes (s : String) : List Nat :=
  hexPairs s.data

/-- UTF-8 encoding of one character (`Buffer.from(string)` uses
UTF-8). -/
def utf8EncodeChar (c : Char) : List Nat :=
  let n := c.toNat
  if n < 128 then [n]
  else if n < 2048 then [192 ||| (n >>> 6), 128 ||| (n &&& 63)]
  else if n < 65536 then
    [224 ||| (n >>> 12), 128 ||| ((n >>> 6) &&& 63), 128 ||| (n &&& 63)]
  else
    [240 ||| (n >>> 18), 128 ||| ((n >>> 12) &&& 63),
     128 ||| ((n >>> 6) &&& 63), 128 ||| (n &&& 63)]

/-- UTF-8 bytes of a string. -/
def utf8Bytes (s : String) : List Nat :=
  (s.data.map utf8EncodeChar).flatten

/-! ## SHA-256 (FIPS 180-4), executable over byte lists -/

/-- Truncation to a 32-bit word. -/
def w32 (n : Nat) : Nat := n % 4294967296

/-- 32-bit right rotation. -/
def rotr32 (x k : Nat) : Nat :=
  w32 ((x >>> k) ||| (x <<< (32 - k)))

def sha256BigSigma0 (x : Nat) : Nat :=
  rotr32 x 2 ^^^ rotr32 x 13 ^^^ rotr32 x 22

def sha256BigSigma1 (x : Nat) : Nat :=
  rotr32 x 6 ^^^ rotr32 x 11 ^^^ rotr32 x 25

def sha256SmallSigma0 (x : Nat) : Nat :=
  rotr32 x 7 ^^^ rotr32 x 18 ^^^ (x >>> 3)

def sha256SmallSigma1 (x : Nat) : Nat :=
  rotr32 x 17 ^^^ rotr32 x 19 ^^^ (x >>> 10)

def sha256K : List Nat :=
  [1116352408, 1899447441, 3049323471, 3921009573, 961987163,
   1508970993, 2453635748, 2870763221, 3624381080, 310598401,
   607225278, 1426881987, 1925078388, 2162078206, 2614888103,
   3248222580, 3835390401, 4022224774, 264347078, 604807628,
   770255983, 1249150122, 1555081692, 1996064986, 2554220882,
   2821834349, 2952996808, 3210313671, 3336571891, 3584528711,
   113926993, 338241895, 666307205, 773529912, 1294757372,
   1396182291, 1695183700, 1986661051, 2177026350, 2456956037,
   2730485921, 2820302411, 3259730800, 3345764771, 3516065817,
   3600352804, 4094571909, 275423344, 430227734, 506948616,
   659060556, 883997877, 958139571, 1322822218, 1537002063,
   1747873779, 1955562222, 2024104815, 2227730452, 2361852424,
   2428436474, 2756734187, 3204031479, 3329325298]

def sha256H0 : List Nat :=
  [1779033703, 3144134277, 1013904242, 2773480762,
   1359893119, 2600822924, 528734635, 1541459225]

/-- Merkle–Damgård padding: `0x80`, zeros to 56 mod 64, 8-byte
big-endian bit length. -/
def sha256Pad (msg : List Nat) : List Nat :=
  let len := msg.length
  let k := (119 - len % 64) % 64
  msg ++ [128] ++ List.replicate k 0 ++ natToBytesBE 8 (len * 8)

/-- Big-endian 32-bit words of a byte list. -/
def bytesToWords : List Nat → List Nat
  | b0 :: b1 :: b2 :: b3 :: rest =>
    (((b0 * 256 + b1) * 256 + b2) * 256 + b3) :: bytesToWords rest
  | _ => []

/-- Message schedule: extend 16 words to 64. -/
def sha256Schedule (ws : List Nat) : Array Nat :=
  (List.range 48).foldl
    (fun w _ =>
      w.push (w32 (sha256SmallSigma1 (w.getD (w.size - 2) 0)
        + w.getD (w.size - 7) 0
        + sha256SmallSigma0 (w.getD (w.size - 15) 0)
        + w.getD (w.size - 16) 0)))
    ws.toArray

/-- One compression round. -/
def sha256Round (ws : Array Nat) (i : Nat)
    (t : Nat × Nat × Nat × Nat × Nat × Nat × Nat × Nat) :
    Nat × Nat × Nat × Nat × Nat × Nat × Nat × Nat :=
  let (a, b, c, d, e, f, g, h) := t
  let ch := (e &&& f) ^^^ ((e ^^^ 4294967295) &&& g)
  let maj := (a &&& b) ^^^ (a &&& c) ^^^ (b &&& c)
  let t1 := w32 (h + sha256BigSigma1 e + ch + sha256K.getD i 0 + ws.getD i 0)
  let t2 := w32 (sha256BigSigma0 a + maj)
  (w32 (t1 + t2), a, b, c, w32 (d + t1), e, f, g)

/-- Compress one 64-byte block into the running hash state. -/
def sha256Compress (H : List Nat) (block : List Nat) : List Nat :=
  let ws := sha256Schedule (bytesToWords block)
  let t0 := (H.getD 0 0, H.getD 1 0, H.getD 2 0, H.getD 3 0,
             H.getD 4 0, H.getD 5 0, H.getD 6 0, H.getD 7 0)
  let t := (List.range 64).foldl (fun s i => sha256Round ws i s) t0
  let (a, b, c, d, e, f, g, h) := t
  [w32 (H.getD 0 0 + a), w32 (H.getD 1 0 + b), w32 (H.getD 2 0 + c),
   w32 (H.getD 3 0 + d), w32 (H.getD 4 0 + e), w32 (H.getD 5 0 + f),
   w32 (H.getD 6 0 + g), w32 (H.getD 7 0 + h)]

/-- Fold the compression over all 64-byte blocks (fuel-structural: one
fuel unit per block, so `fuel = l.length` always suffices). -/
def sha256Blocks : Nat → List Nat → List Nat → List Nat
  | 0, H, _ => H
  | fuel + 1, H, l =>
    if l.length < 64 then H
    else sha256Blocks fuel (sha256Compress H (l.take 64)) (l.drop 64)

/-- SHA-256 digest (32 bytes) of a byte list. -/
def sha256Digest (msg : List Nat) : List Nat :=
  let padded := sha256Pad msg
  ((sha256Blocks padded.length sha256H0 padded).map (natToBytesBE 4)).flatten

/-! ## crypto.ts — `n3MessageFormat`, `verifySignature`,
`getAddressFromPublicKey`

```ts
function n3MessageFormat(message: string): string {
  const parameterHexString = Buffer.from(message).toString("hex");
  const lengthHex = u.num2VarInt(parameterHexString.length / 2);
  const concatenatedString = lengthHex + parameterHexString;
  const prefix = "0000...000100...00";           // 96 hex chars
  const messageHex = prefix + concatenatedString;
  const signHex = u.num2hexstring(0, 4, true) + u.sha256(messageHex);
  return signHex;
}
```

`u.num2hexstring`, `u.num2VarInt` and `u.sha256` are the neon-js
utilities: fixed-width hex of a number (big-endian unless the
little-endian flag is set), the Neo variable-length integer, and a
single SHA-256 of a hex-decoded string returning hex. -/

/-- neon-js `u.num2hexstring(num, size, littleEndian)`. -/
def num2hexstring (num size : Nat) (littleEndian : Bool) : String :=
  let bytes := natToBytesBE size num
  bytesToHex (if littleEndian then bytes.reverse else bytes)

/-- neon-js `u.num2VarInt(num)`: 1 byte below `0xfd`, else a marker byte
plus a 2/4/8-byte little-endian value. -/
def num2VarInt (num : Nat) : String :=
  if num < 253 then num2hexstring num 1 false
  else if num ≤ 65535 then "fd" ++ num2hexstring num 2 true
  else if num ≤ 4294967295 then "fe" ++ num2hexstring num 4 true
  else "ff" ++ num2hexstring num 8 true

/-- neon-js `u.sha256(hex)`: hex-decode, single SHA-256, hex-encode. -/
def sha256HexStr (hex : String) : String :=
  bytesToHex (sha256Digest (hexToBytes hex))

/-- The transaction-like prefix literal of `n3MessageFormat` (96 hex
characters). -/
def n3Prefix : String :=
  "000000000000000000000000000000000000000000000000000100000000000000000000000000000000000000000000"

/-- `n3MessageFormat(message)` from `lib/crypto.ts`. -/
def n3MessageFormat (message : String) : String :=
  let parameterHexString := bytesToHex (utf8Bytes message)
  let lengthHex := num2VarInt (parameterHexString.data.length / 2)
  let concatenatedString := lengthHex ++ parameterHexString
  let messageHex := n3Prefix ++ concatenatedString
  num2hexstring 0 4 true ++ sha256HexStr messageHex

/-- `verifySignature(message, signature, publicKey)`: the wallet
elliptic-curve check (`wallet.verify`) is an external collaborator,
passed as an oracle that can also throw (`.error`).  The `try/catch`
folds every throw — from the oracle, e.g. on structurally invalid hex
or keys — into `.ok false`; a result of `.ok` models normal return. -/
def verifySignature
    (walletVerify : String → String → String → Except String Bool)
    (message signature publicKey : String) : Except String Bool :=
  match walletVerify (n3MessageFormat message) signature publicKey with
  | .ok b => .ok b
  | .error _ => .ok false

/-- `getAddressFromPublicKey(publicKey)`: wraps the neon-js
`wallet.Account` derivation (an oracle here); a throw is re-thrown as
`Invalid public key`. -/
def getAddressFromPublicKey
    (accountAddress : String → Except String String)
    (publicKey : String) : Except String String :=
  match accountAddress publicKey with
  | .ok a => .ok a
  | .error _ => .error "Invalid public key"

/-- The wrap step exactly as the specification words it, parameterized
by the pseudo-transaction-header prefix bytes: hex of the message bytes,
var-int of the byte length, `prefix ++ varint ++ messageHex`, then the
4-byte little-endian magic `0` followed by the SHA-256 of the
hex-decoded concatenation. -/
def claimWrap (prefixBytes : List Nat) (message : String) : String :=
  let msgHex := bytesToHex (utf8Bytes message)
  let varint := num2VarInt (msgHex.data.length / 2)
  num2hexstring 0 4 true
    ++ sha256HexStr (bytesToHex prefixBytes ++ varint ++ msgHex)

/-! ## NonceStore — consumption against `private.auth_nonces`

The `POST /login` handler consumes the nonce with

```ts
const { data: nonceData, error: nonceError } = await supabase
  .schema("private").from("auth_nonces")
  .delete()
  .match({ address: siwn.address, nonce: siwn.nonce })
  .select()
  .maybeSingle();
if (nonceError || !nonceData) { ... 401 ... }
```

The `DELETE` removes every row whose `address` and `nonce` columns both
match — the `expires_at` column is not part of the filter.
`.maybeSingle()` yields the deleted row when exactly one was deleted,
`null` when none was, and an error when more than one was.  The
migration's `cleanup_expired_nonces()` sweep is a separate, externally
scheduled job and is not part of this request path.
-/

/-- A row of `private.auth_nonces` (timestamps as epoch milliseconds). -/
structure NonceRec where
  address : String
  nonce : String
  expiresAt : Int
deriving DecidableEq, Repr

/-- The delete-and-return step of `POST /login`: removes every row
matching `(address, nonce)` and reports success iff exactly one row was
removed.  Returns `(consumed, remaining store)`. -/
def consumeNonce (store : List NonceRec) (address nonce : String) :
    Bool × List NonceRec :=
  let matched := store.filter
    (fun r => r.address == address && r.nonce == nonce)
  let remaining := store.filter
    (fun r => !(r.address == address && r.nonce == nonce))
  (matched.length == 1, remaining)

/-! ## Credential derivation (index.ts)

```ts
const walletPassword = `neo_${siwn.address}_${authSecret.substring(0, 16)}`;
const walletEmail = `wallet_${siwn.address}@my-app.com`;
```
-/

/-- The deterministic wallet password derived in `POST /login`. -/
def walletPassword (address authSecret : String) : String :=
  "neo_" ++ address ++ "_" ++ jsTake authSecret 16

/-- The deterministic wallet email derived in `POST /login`. -/
def walletEmail (address : String) : String :=
  "wallet_" ++ address ++ "@my-app.com"

/-- The `(email, password)` pair used both for `createUser` and for
`signInWithPassword`. -/
def loginCredentials (address authSecret : String) : String × String :=
  (walletEmail address, walletPassword address authSecret)

/-! ## LoginOrchestrator — the `POST /login` branch of `index.ts`

The handler is embedded as a function from the request body, the
environment, and the outcomes of the external collaborators (crypto
library, Postgres, Supabase auth) to the HTTP status code.  Any
exception thrown inside the `Deno.serve` callback is caught by the
final `catch`, which responds with status **401**
(`"Authentication failed"`); that is where a `fromMessage` or
`validate` throw lands. -/

/-- `{ message, signature, publicKey }` of the request body (`none` =
absent/undefined field). -/
structure LoginBody where
  message : Option String
  signature : Option String
  publicKey : Option String

/-- The environment variables read by the handler. -/
structure LoginEnv where
  allowedDomains : Option String
  walletAuthSecret : Option String

/-- Outcomes of the external collaborators for one request. -/
structure LoginExt where
  accountAddress : String → Except String String
  walletVerify : String → String → String → Except String Bool
  nonceError : Bool
  nonceFound : Bool
  walletRow : Option String
  createUserError : Bool
  linkError : Bool
  signInError : Bool
  now : Int

/-- The `if (!message || !signature || !publicKey)` guard (De Morgan). -/
def bodyFieldsPresent (b : LoginBody) : Bool :=
  jsTruthy b.message && jsTruthy b.signature && jsTruthy b.publicKey

/-- `ALLOWED_DOMAINS.split(",").map(trim)`. -/
def allowedPatterns (env : LoginEnv) : List String :=
  (jsSplitComma (env.allowedDomains.getD "")).map jsTrim

/-- The `POST /login` handler: status code of the response.  `body =
none` models a `req.json()` throw (caught by the catch-all → 401). -/
def handleLogin (env : LoginEnv) (ext : LoginExt)
    (body : Option LoginBody) : Nat :=
  match body with
  | none => 401
  | some b =>
    if !(bodyFieldsPresent b)
    then 400
    else
      match fromMessage (b.message.getD "") with
      | .error _ => 401
      | .ok siwn =>
        if !(jsTruthy env.allowedDomains) then 500
        else
          if !(isDomainAllowed siwn.domain (allowedPatterns env)) then 400
          else
            match validate siwn none none ext.now with
            | .error _ => 401
            | .ok _ =>
              match getAddressFromPublicKey ext.accountAddress
                  (b.publicKey.getD "") with
              | .error _ => 401
              | .ok derivedAddress =>
                if derivedAddress ≠ siwn.address then 400
                else
                  match verifySignature ext.walletVerify (b.message.getD "")
                      (b.signature.getD "") (b.publicKey.getD "") with
                  | .error _ => 401
                  | .ok isValid =>
                    if !isValid then 401
                    else if ext.nonceError || !ext.nonceFound then 401
                    else if !(jsTruthy env.walletAuthSecret) then 500
                    else
                      match ext.walletRow with
                      | none =>
                        if ext.createUserError then 500
                        else if ext.linkError then 500
                        else if ext.signInError then 500
                        else 200
                      | some _ =>
                        if ext.signInError then 500
                        else 200

/-! ## Guard characterizations for `validate` -/

/-- "A non-empty expected value is given and the actual value differs"
— the condition under which a `validate` equality guard fires. -/
def expectedMismatch (given : Option String) (actual : String) : Prop :=
  ∃ s, given = some s ∧ s ≠ "" ∧ actual ≠ s

/-- "A non-empty expiration time is present and is a date earlier than
`now`". -/
def expiredAt (o : Option String) (now : Int) : Prop :=
  ∃ s, o = some s ∧ s ≠ "" ∧ jsDateLtNow (jsDateParse s) now = true

/-- "The issue date parses and is later than `now`". -/
def futureAt (issuedAt : String) (now : Int) : Prop :=
  jsDateGtNow (jsDateParse issuedAt) now = true

theorem truthyGuard_iff (given : Option String) (actual : String) :
    (jsTruthy given && !(actual == given.getD "")) = true
      ↔ expectedMismatch given actual := by
  cases given with
  | none => simp [jsTruthy, expectedMismatch]
  | some s =>
    simp only [jsTruthy, Option.getD_some, Bool.and_eq_true, Bool.not_eq_true',
      beq_eq_false_iff_ne, ne_eq, expectedMismatch]
    constructor
    · rintro ⟨h1, h2⟩
      exact ⟨s, rfl, by simpa using h1, h2⟩
    · rintro ⟨t, ht, h1, h2⟩
      cases ht
      exact ⟨by simpa using h1, h2⟩

theorem expGuard_iff (o : Option String) (now : Int) :
    (jsTruthy o && jsDateLtNow (jsDateParse (o.getD "")) now) = true
      ↔ expiredAt o now := by
  cases o with
  | none => simp [jsTruthy, expiredAt]
  | some s =>
    simp only [jsTruthy, Option.getD_some, Bool.and_eq_true, Bool.not_eq_true',
      beq_eq_false_iff_ne, ne_eq, expiredAt]
    constructor
    · rintro ⟨h1, h2⟩
      exact ⟨s, rfl, by simpa using h1, h2⟩
    · rintro ⟨t, ht, h1, h2⟩
      cases ht
      exact ⟨by simpa using h1, h2⟩

/-! ## Concrete fixtures shared by several claims -/

/-- A representative valid challenge message. -/
def exampleMsg : SIWNMessage :=
  ⟨"localhost", "NWxZhS89HjdRw2ZushLjEZTdd51ErUFx6a",
   "Sign in with your Neo account", "http://localhost:3000", "1", some 3,
   "test-nonce", "2026-02-19T11:00:00.000Z", some "2026-02-19T11:05:00.000Z"⟩

/-- A structurally well-formed message whose `Chain ID` value has no
digits. -/
def badChainMsg : String :=
  "localhost wants you to sign in with your Neo account:\naddr\n\nstmt\n\nURI: u\nVersion: 1\nChain ID: not-a-number\nNonce: n\nIssued At: whenever"

/-! ## Claim theorems -/

/-- Claim C1 (code_bug evaluation): the delete-and-return nonce
consumption never consults `expires_at`.  At evaluation time 300000 ms
the store's only record (`expiresAt = 0`) is expired, yet consumption
succeeds; it also shows single-use: the second consumption of the same
pair fails. -/
theorem claim_C1_consume_expired :
    (consumeNonce [⟨"NAddr1", "nonce1", 0⟩] "NAddr1" "nonce1").1 = true
    ∧ (∀ r ∈ ([⟨"NAddr1", "nonce1", 0⟩] : List NonceRec),
        r.expiresAt < 300000)
    ∧ (consumeNonce
        (consumeNonce [⟨"NAddr1", "nonce1", 0⟩] "NAddr1" "nonce1").2
        "NAddr1" "nonce1").1 = false := by
  decide

set_option maxRecDepth 400000

/-- Claim C2 (counterexample): the pseudo-transaction-header prefix is
not the 49 all-zero bytes the claim describes — already on the empty
message the code's result differs from the claimed construction. -/
theorem claim_C2_counterexample :
    n3MessageFormat "" ≠ claimWrap (List.replicate 49 0) "" := by
  decide

/-- Claim C2 (amended): `n3MessageFormat` follows the claimed steps with
a 48-byte prefix that is all zero except byte 25 (0-based), which is
`0x01` (a one-element zeroed signer list): hex-encode the message
bytes, var-int of the byte length, concatenate prefix + var-int +
message hex, and return the 4-byte little-endian magic `0` followed by
the SHA-256 of the hex-decoded concatenation. -/
theorem claim_C2_amended (message : String) :
    n3MessageFormat message
      = claimWrap ((List.replicate 48 0).set 25 1) message := by
  have hpre : bytesToHex ((List.replicate 48 0).set 25 1) = n3Prefix := by
    decide
  show num2hexstring 0 4 true
      ++ sha256HexStr (n3Prefix
        ++ (num2VarInt ((bytesToHex (utf8Bytes message)).data.length / 2)
          ++ bytesToHex (utf8Bytes message)))
    = num2hexstring 0 4 true
      ++ sha256HexStr (bytesToHex ((List.replicate 48 0).set 25 1)
        ++ (num2VarInt ((bytesToHex (utf8Bytes message)).data.length / 2)
          ++ bytesToHex (utf8Bytes message)))
  rw [hpre]

/-- Claim C4: `verifySignature` always returns a boolean (`.ok`) and
never propagates a throw: when the wallet verification oracle throws,
the result is `false`; when it returns a boolean, that boolean is the
result. -/
theorem claim_C4_verify_total
    (walletVerify : String → String → String → Except String Bool)
    (message signature publicKey : String) :
    (∃ b, verifySignature walletVerify message signature publicKey
      = .ok b)
    ∧ (∀ e, walletVerify (n3MessageFormat message) signature publicKey
        = .error e →
        verifySignature walletVerify message signature publicKey
          = .ok false)
    ∧ (∀ b, walletVerify (n3MessageFormat message) signature publicKey
        = .ok b →
        verifySignature walletVerify message signature publicKey
          = .ok b) := by
  unfold verifySignature
  cases hw : walletVerify (n3MessageFormat message) signature publicKey with
  | ok b =>
    refine ⟨⟨b, rfl⟩, ?_, ?_⟩
    · intro e he
      exact Except.noConfusion he
    · intro b' hb
      have hbb : b = b' := by injection hb
      subst hbb
      rfl
  | error e =>
    refine ⟨⟨false, rfl⟩, ?_, ?_⟩
    · intro e' _
      rfl
    · intro b hb
      exact Except.noConfusion hb

/-- Claim C4 witness: a throwing oracle (structurally invalid input) is
folded into `false`. -/
theorem claim_C4_witness :
    verifySignature (fun _ _ _ => Except.error "invalid key format")
      "some message" "zz" "not-a-key" = Except.ok false :=
  (claim_C4_verify_total (fun _ _ _ => Except.error "invalid key format")
    "some message" "zz" "not-a-key").2.1 "invalid key format" rfl

/-- Claim C5 exactly as stated: each validation error fires iff its
condition holds, where "an expected domain (nonce) is given" is read as
the option being present (`isSome`), with the listed order breaking
ties. -/
def claimC5Statement : Prop :=
  ∀ (m : SIWNMessage) (d n : Option String) (now : Int),
    (validate m d n now = .error .domainMismatch
      ↔ d.isSome = true ∧ d ≠ some m.domain)
    ∧ (validate m d n now = .error .nonceMismatch
      ↔ ¬(d.isSome = true ∧ d ≠ some m.domain)
        ∧ n.isSome = true ∧ n ≠ some m.nonce)
    ∧ (validate m d n now = .error .messageExpired
      ↔ ¬(d.isSome = true ∧ d ≠ some m.domain)
        ∧ ¬(n.isSome = true ∧ n ≠ some m.nonce)
        ∧ (∃ s, m.expirationTime = some s
            ∧ jsDateLtNow (jsDateParse s) now = true))
    ∧ (validate m d n now = .error .issuedInFuture
      ↔ ¬(d.isSome = true ∧ d ≠ some m.domain)
        ∧ ¬(n.isSome = true ∧ n ≠ some m.nonce)
        ∧ ¬(∃ s, m.expirationTime = some s
            ∧ jsDateLtNow (jsDateParse s) now = true)
        ∧ jsDateGtNow (jsDateParse m.issuedAt) now = true)

/-- Claim C5 (counterexample): an empty-string expected domain is
"given" and differs from the message domain, yet `validate` succeeds,
because the source guards with JS truthiness (`opts.domain &&`) and
`""` is falsy. -/
theorem claim_C5_counterexample : ¬ claimC5Statement := by
  intro h
  have hm := (h ⟨"app", "a", "s", "u", "v", some 1, "n", "x", none⟩
    (some "") none 0).1
  have hfire : validate ⟨"app", "a", "s", "u", "v", some 1, "n", "x", none⟩
      (some "") none 0 = .error .domainMismatch :=
    hm.mpr ⟨rfl, by decide⟩
  have hok : validate ⟨"app", "a", "s", "u", "v", some 1, "n", "x", none⟩
      (some "") none 0 = Except.ok () := rfl
  exact Except.noConfusion (hok.symm.trans hfire)

/-- Claim C5 (amended): the characterization holds once "given" is read
with JS truthiness — a non-empty expected value is given and differs
(`expectedMismatch`); temporal conditions compare parsed dates (false
on an invalid date); the first failing check in the listed order
determines the error, and `validate` succeeds iff no check fails. -/
theorem claim_C5_amended (m : SIWNMessage) (d n : Option String)
    (now : Int) :
    (validate m d n now = .error .domainMismatch
      ↔ expectedMismatch d m.domain)
    ∧ (validate m d n now = .error .nonceMismatch
      ↔ ¬expectedMismatch d m.domain ∧ expectedMismatch n m.nonce)
    ∧ (validate m d n now = .error .messageExpired
      ↔ ¬expectedMismatch d m.domain ∧ ¬expectedMismatch n m.nonce
        ∧ expiredAt m.expirationTime now)
    ∧ (validate m d n now = .error .issuedInFuture
      ↔ ¬expectedMismatch d m.domain ∧ ¬expectedMismatch n m.nonce
        ∧ ¬expiredAt m.expirationTime now ∧ futureAt m.issuedAt now)
    ∧ (validate m d n now = .ok ()
      ↔ ¬expectedMismatch d m.domain ∧ ¬expectedMismatch n m.nonce
        ∧ ¬expiredAt m.expirationTime now ∧ ¬futureAt m.issuedAt now) := by
  have e1 := truthyGuard_iff d m.domain
  have e2 := truthyGuard_iff n m.nonce
  have e3 := expGuard_iff m.expirationTime now
  unfold validate
  by_cases h1 : (jsTruthy d && !(m.domain == d.getD "")) = true
  · rw [if_pos h1]
    have p1 := e1.mp h1
    exact ⟨iff_of_true rfl p1,
      iff_of_false (by simp) (fun hc => hc.1 p1),
      iff_of_false (by simp) (fun hc => hc.1 p1),
      iff_of_false (by simp) (fun hc => hc.1 p1),
      iff_of_false (by simp) (fun hc => hc.1 p1)⟩
  · rw [if_neg h1]
    have p1 : ¬expectedMismatch d m.domain := fun hp => h1 (e1.mpr hp)
    by_cases h2 : (jsTruthy n && !(m.nonce == n.getD "")) = true
    · rw [if_pos h2]
      have p2 := e2.mp h2
      exact ⟨iff_of_false (by simp) p1,
        iff_of_true rfl ⟨p1, p2⟩,
        iff_of_false (by simp) (fun hc => hc.2.1 p2),
        iff_of_false (by simp) (fun hc => hc.2.1 p2),
        iff_of_false (by simp) (fun hc => hc.2.1 p2)⟩
    · rw [if_neg h2]
      have p2 : ¬expectedMismatch n m.nonce := fun hp => h2 (e2.mpr hp)
      by_cases h3 : (jsTruthy m.expirationTime
          && jsDateLtNow (jsDateParse (m.expirationTime.getD "")) now)
          = true
      · rw [if_pos h3]
        have p3 := e3.mp h3
        exact ⟨iff_of_false (by simp) p1,
          iff_of_false (by simp) (fun hc => p2 hc.2),
          iff_of_true rfl ⟨p1, p2, p3⟩,
          iff_of_false (by simp) (fun hc => hc.2.2.1 p3),
          iff_of_false (by simp) (fun hc => hc.2.2.1 p3)⟩
      · rw [if_neg h3]
        have p3 : ¬expiredAt m.expirationTime now :=
          fun hp => h3 (e3.mpr hp)
        by_cases h4 : jsDateGtNow (jsDateParse m.issuedAt) now = true
        · rw [if_pos h4]
          exact ⟨iff_of_false (by simp) p1,
            iff_of_false (by simp) (fun hc => p2 hc.2),
            iff_of_false (by simp) (fun hc => p3 hc.2.2),
            iff_of_true rfl ⟨p1, p2, p3, h4⟩,
            iff_of_false (by simp) (fun hc => hc.2.2.2 h4)⟩
        · rw [if_neg h4]
          exact ⟨iff_of_false (by simp) p1,
            iff_of_false (by simp) (fun hc => p2 hc.2),
            iff_of_false (by simp) (fun hc => p3 hc.2.2),
            iff_of_false (by simp) (fun hc => h4 hc.2.2.2),
            iff_of_true rfl ⟨p1, p2, p3, fun hp => h4 hp⟩⟩

/-! ## C6: status codes of `POST /login` -/

/-- Environment for a successful login scenario. -/
def goodEnv : LoginEnv :=
  ⟨some "localhost:*,*.example.com", some "0123456789abcdefREST-OF-SECRET"⟩

/-- External-collaborator outcomes for a successful login scenario
(`now` is between the example message's issue and expiry times). -/
def goodExt : LoginExt :=
  ⟨fun _ => .ok "NWxZhS89HjdRw2ZushLjEZTdd51ErUFx6a",
   fun _ _ _ => .ok true, false, true, none, false, false, false,
   1771498900000⟩

/-- A request body carrying the example message. -/
def goodBody : LoginBody :=
  ⟨some (prepareMessage exampleMsg), some "30440220aabb",
   some "0307077e6f8cc500ac6993a90324d553b49e095b3f114674384a62174621c7694f"⟩

/-- A request body whose message does not parse. -/
def badMsgBody : LoginBody :=
  ⟨some "garbage", some "30440220aabb", some "02aabb"⟩

/-- Claim C6 (counterexample): a malformed (unparseable) message is
answered with status 401 — the `fromMessage` throw lands in the
catch-all — not with the claimed 400. -/
theorem claim_C6_counterexample :
    (fromMessage "garbage").isOk = false
    ∧ handleLogin goodEnv goodExt (some badMsgBody) = 401
    ∧ handleLogin goodEnv goodExt (some badMsgBody) ≠ 400 := by
  decide

/-- Claim C6 (amended): `POST /login` returns 400 for missing fields,
domain rejection, or a key/address mismatch; **401** for a malformed
(unparseable) message (via the catch-all), a failed `validate`, an
invalid public key, an invalid signature, or an invalid nonce; 500 for
missing configuration (`ALLOWED_DOMAINS`, `WALLET_AUTH_SECRET`) or an
identity-store failure; and 200 on full success. -/
theorem claim_C6_amended (env : LoginEnv) (ext : LoginExt)
    (b : LoginBody) :
    (bodyFieldsPresent b = false → handleLogin env ext (some b) = 400)
    ∧ (∀ e, bodyFieldsPresent b = true →
        fromMessage (b.message.getD "") = .error e →
        handleLogin env ext (some b) = 401)
    ∧ (∀ siwn, bodyFieldsPresent b = true →
        fromMessage (b.message.getD "") = .ok siwn →
        jsTruthy env.allowedDomains = false →
        handleLogin env ext (some b) = 500)
    ∧ (∀ siwn, bodyFieldsPresent b = true →
        fromMessage (b.message.getD "") = .ok siwn →
        jsTruthy env.allowedDomains = true →
        isDomainAllowed siwn.domain (allowedPatterns env) = false →
        handleLogin env ext (some b) = 400)
    ∧ (∀ siwn err, bodyFieldsPresent b = true →
        fromMessage (b.message.getD "") = .ok siwn →
        jsTruthy env.allowedDomains = true →
        isDomainAllowed siwn.domain (allowedPatterns env) = true →
        validate siwn none none ext.now = .error err →
        handleLogin env ext (some b) = 401)
    ∧ (∀ siwn e, bodyFieldsPresent b = true →
        fromMessage (b.message.getD "") = .ok siwn →
        jsTruthy env.allowedDomains = true →
        isDomainAllowed siwn.domain (allowedPatterns env) = true →
        validate siwn none none ext.now = .ok () →
        getAddressFromPublicKey ext.accountAddress (b.publicKey.getD "")
          = .error e →
        handleLogin env ext (some b) = 401)
    ∧ (∀ siwn addr, bodyFieldsPresent b = true →
        fromMessage (b.message.getD "") = .ok siwn →
        jsTruthy env.allowedDomains = true →
        isDomainAllowed siwn.domain (allowedPatterns env) = true →
        validate siwn none none ext.now = .ok () →
        getAddressFromPublicKey ext.accountAddress (b.publicKey.getD "")
          = .ok addr →
        addr ≠ siwn.address →
        handleLogin env ext (some b) = 400)
    ∧ (∀ siwn, bodyFieldsPresent b = true →
        fromMessage (b.message.getD "") = .ok siwn →
        jsTruthy env.allowedDomains = true →
        isDomainAllowed siwn.domain (allowedPatterns env) = true →
        validate siwn none none ext.now = .ok () →
        getAddressFromPublicKey ext.accountAddress (b.publicKey.getD "")
          = .ok siwn.address →
        verifySignature ext.walletVerify (b.message.getD "")
          (b.signature.getD "") (b.publicKey.getD "") = .ok false →
        handleLogin env ext (some b) = 401)
    ∧ (∀ siwn, bodyFieldsPresent b = true →
        fromMessage (b.message.getD "") = .ok siwn →
        jsTruthy env.allowedDomains = true →
        isDomainAllowed siwn.domain (allowedPatterns env) = true →
        validate siwn none none ext.now = .ok () →
        getAddressFromPublicKey ext.accountAddress (b.publicKey.getD "")
          = .ok siwn.address →
        verifySignature ext.walletVerify (b.message.getD "")
          (b.signature.getD "") (b.publicKey.getD "") = .ok true →
        (ext.nonceError || !ext.nonceFound) = true →
        handleLogin env ext (some b) = 401)
    ∧ (∀ siwn, bodyFieldsPresent b = true →
        fromMessage (b.message.getD "") = .ok siwn →
        jsTruthy env.allowedDomains = true →
        isDomainAllowed siwn.domain (allowedPatterns env) = true →
        validate siwn none none ext.now = .ok () →
        getAddressFromPublicKey ext.accountAddress (b.publicKey.getD "")
          = .ok siwn.address →
        verifySignature ext.walletVerify (b.message.getD "")
          (b.signature.getD "") (b.publicKey.getD "") = .ok true →
        (ext.nonceError || !ext.nonceFound) = false →
        jsTruthy env.walletAuthSecret = false →
        handleLogin env ext (some b) = 500)
    ∧ (∀ siwn, bodyFieldsPresent b = true →
        fromMessage (b.message.getD "") = .ok siwn →
        jsTruthy env.allowedDomains = true →
        isDomainAllowed siwn.domain (allowedPatterns env) = true →
        validate siwn none none ext.now = .ok () →
        getAddressFromPublicKey ext.accountAddress (b.publicKey.getD "")
          = .ok siwn.address →
        verifySignature ext.walletVerify (b.message.getD "")
          (b.signature.getD "") (b.publicKey.getD "") = .ok true →
        (ext.nonceError || !ext.nonceFound) = false →
        jsTruthy env.walletAuthSecret = true →
        ((ext.walletRow = none
            ∧ (ext.createUserError = true ∨ ext.linkError = true))
          ∨ ext.signInError = true) →
        handleLogin env ext (some b) = 500)
    ∧ (∀ siwn, bodyFieldsPresent b = true →
        fromMessage (b.message.getD "") = .ok siwn →
        jsTruthy env.allowedDomains = true →
        isDomainAllowed siwn.domain (allowedPatterns env) = true →
        validate siwn none none ext.now = .ok () →
        getAddressFromPublicKey ext.accountAddress (b.publicKey.getD "")
          = .ok siwn.address →
        verifySignature ext.walletVerify (b.message.getD "")
          (b.signature.getD "") (b.publicKey.getD "") = .ok true →
        (ext.nonceError || !ext.nonceFound) = false →
        jsTruthy env.walletAuthSecret = true →
        (ext.walletRow = none →
          ext.createUserError = false ∧ ext.linkError = false) →
        ext.signInError = false →
        handleLogin env ext (some b) = 200) := by
  refine ⟨?_, ?_, ?_, ?_, ?_, ?_, ?_, ?_, ?_, ?_, ?_, ?_⟩
  · intro h0
    simp [handleLogin, h0]
  · intro e h0 hp
    simp [handleLogin, h0, hp]
  · intro siwn h0 hp ha
    simp [handleLogin, h0, hp, ha]
  · intro siwn h0 hp ha hd
    simp [handleLogin, h0, hp, ha, hd]
  · intro siwn err h0 hp ha hd hv
    simp [handleLogin, h0, hp, ha, hd, hv]
  · intro siwn e h0 hp ha hd hv hk
    simp [handleLogin, h0, hp, ha, hd, hv, hk]
  · intro siwn addr h0 hp ha hd hv hk hne
    simp [handleLogin, h0, hp, ha, hd, hv, hk, hne]
  · intro siwn h0 hp ha hd hv hk hs
    simp [handleLogin, h0, hp, ha, hd, hv, hk, hs]
  · intro siwn h0 hp ha hd hv hk hs hn
    simp [handleLogin, h0, hp, ha, hd, hv, hk, hs, hn]
  · intro siwn h0 hp ha hd hv hk hs hn hsec
    simp [handleLogin, h0, hp, ha, hd, hv, hk, hs, hn, hsec]
  · intro siwn h0 hp ha hd hv hk hs hn hsec hid
    rcases hid with ⟨hrow, hce⟩ | hsign
    · rcases hce with hcu | hle
      · simp [handleLogin, h0, hp, ha, hd, hv, hk, hs, hn, hsec, hrow, hcu]
      · cases hcu : ext.createUserError
        · simp [handleLogin, h0, hp, ha, hd, hv, hk, hs, hn, hsec, hrow,
            hcu, hle]
        · simp [handleLogin, h0, hp, ha, hd, hv, hk, hs, hn, hsec, hrow,
            hcu]
    · cases hrow : ext.walletRow with
      | none =>
        cases hcu : ext.createUserError
        · cases hle : ext.linkError
          · simp [handleLogin, h0, hp, ha, hd, hv, hk, hs, hn, hsec, hrow,
              hcu, hle, hsign]
          · simp [handleLogin, h0, hp, ha, hd, hv, hk, hs, hn, hsec, hrow,
              hcu, hle]
        · simp [handleLogin, h0, hp, ha, hd, hv, hk, hs, hn, hsec, hrow,
            hcu]
      | some row =>
        simp [handleLogin, h0, hp, ha, hd, hv, hk, hs, hn, hsec, hrow,
          hsign]
  · intro siwn h0 hp ha hd hv hk hs hn hsec hwr hsign
    cases hrow : ext.walletRow with
    | none =>
      obtain ⟨hcu, hle⟩ := hwr hrow
      simp [handleLogin, h0, hp, ha, hd, hv, hk, hs, hn, hsec, hrow, hcu,
        hle, hsign]
    | some row =>
      simp [handleLogin, h0, hp, ha, hd, hv, hk, hs, hn, hsec, hrow, hsign]

/-- Claim C6 witness: the full success scenario reaches status 200. -/
theorem claim_C6_witness : handleLogin goodEnv goodExt (some goodBody) = 200 :=
  (claim_C6_amended goodEnv goodExt goodBody).2.2.2.2.2.2.2.2.2.2.2
    exampleMsg (by decide) (by decide) (by decide) (by decide) (by decide)
    (by decide) (by decide) (by decide) (by decide)
    (fun _ => ⟨rfl, rfl⟩) rfl

/-! ## C7: domain matching -/

/-- Claim C7: `isDomainAllowed` is a logical OR of the claimed
per-pattern rule over the pattern list (exact match; `*.suffix` matches
a domain ending in `.suffix` or equal to `suffix`; `p:*` matches a
domain equal to `p` or starting with `p:`), and the §8 vectors hold. -/
theorem claim_C7_domains :
    (∀ (domain : String) (patterns : List String),
      isDomainAllowed domain patterns = true
        ↔ ∃ p ∈ patterns, claimPatternMatch domain p = true)
    ∧ isDomainAllowed "app.example.com" ["*.example.com"] = true
    ∧ isDomainAllowed "example.com" ["*.example.com"] = true
    ∧ isDomainAllowed "other.com" ["*.example.com"] = false
    ∧ isDomainAllowed "localhost:3000" ["localhost:*"] = true
    ∧ isDomainAllowed "127.0.0.1" ["localhost:*"] = false := by
  refine ⟨?_, by decide, by decide, by decide, by decide, by decide⟩
  intro domain patterns
  unfold isDomainAllowed
  rw [List.any_eq_true]
  constructor
  · rintro ⟨p, hp, hm⟩
    exact ⟨p, hp, by rwa [← domainPatternTest_eq_claim]⟩
  · rintro ⟨p, hp, hm⟩
    exact ⟨p, hp, by rwa [domainPatternTest_eq_claim]⟩

/-! ## C8: non-numeric Chain ID -/

/-- Does some line of the message carry key `Chain ID` with a value
`parseInt` coerces to `NaN`? -/
def hasNonNumericChainIdLine (message : String) : Bool :=
  (jsSplitNl message).any (fun line =>
    decide ((splitFirstSep [':', ' '] line.data).1 = "Chain ID".data)
    && decide (jsParseInt ⟨(splitFirstSep [':', ' '] line.data).2⟩ = none))

/-- Claim C8 (counterexample): a message whose `Chain ID` line carries a
digit-free value parses successfully — `fromMessage` produces a
`SIWNMessage` (with `chainId = NaN`) instead of failing. -/
theorem claim_C8_counterexample :
    hasNonNumericChainIdLine badChainMsg = true
    ∧ (fromMessage badChainMsg).isOk = true
    ∧ Except.map SIWNMessage.chainId (fromMessage badChainMsg)
      = .ok none := by
  decide

/-- Claim C8 (amended): `fromMessage` fails only when the title line is
malformed; a non-numeric `Chain ID` value never causes a failure — the
message is produced with the silently coerced (`NaN`) chain id, as the
concrete run shows. -/
theorem claim_C8_amended :
    (∀ message : String,
      (fromMessage message).isOk
        = (headerDomain ((jsSplitNl message).headD "")).isSome)
    ∧ Except.map SIWNMessage.chainId (fromMessage badChainMsg)
      = .ok none := by
  constructor
  · intro message
    simp only [fromMessage]
    cases h : headerDomain ((jsSplitNl message).headD "") with
    | none => rfl
    | some d => rfl
  · decide

/-! ## C9: invalid dates pass validation -/

/-- Claim C9: when `issuedAt` does not parse as a date and the
expiration time (when present) does not either, `validate` with no
expected domain or nonce succeeds at every validation time — the
temporal comparisons against an invalid date are always false. -/
theorem claim_C9_invalid_dates (m : SIWNMessage) (now : Int)
    (h1 : jsDateParse m.issuedAt = none)
    (h2 : m.expirationTime.all (fun s => jsDateParse s == none) = true) :
    validate m none none now = .ok () := by
  unfold validate
  rw [if_neg (by simp [jsTruthy])]
  rw [if_neg (by simp [jsTruthy])]
  rw [if_neg ?g3]
  case g3 =>
    cases he : m.expirationTime with
    | none => simp [jsTruthy]
    | some s =>
      have hs : jsDateParse s = none := by
        rw [he] at h2
        simpa using h2
      simp [jsTruthy, hs, jsDateLtNow]
  rw [if_neg (by simp [h1, jsDateGtNow])]

/-- A message whose timestamps are not valid dates. -/
def invalidDateMsg : SIWNMessage :=
  ⟨"localhost", "NAddr1", "stmt", "u", "1", some 3, "n",
   "not-a-date", some "tomorrow-ish"⟩

/-- Claim C9 witness: the invalid-date message validates at an arbitrary
time. -/
theorem claim_C9_witness :
    jsDateParse invalidDateMsg.issuedAt = none
    ∧ invalidDateMsg.expirationTime.all (fun s => jsDateParse s == none)
      = true
    ∧ validate invalidDateMsg none none 1771498800000 = .ok () :=
  ⟨by decide, by decide,
    claim_C9_invalid_dates invalidDateMsg 1771498800000 (by decide)
      (by decide)⟩

/-! ## C10: credential derivation -/

/-- Claim C10: the derived login credential depends only on the wallet
address and the first 16 characters of the configured secret — two
secrets agreeing on their first 16 characters yield identical email and
password for every address. -/
theorem claim_C10_secret_prefix (address s1 s2 : String)
    (h : jsTake s1 16 = jsTake s2 16) :
    loginCredentials address s1 = loginCredentials address s2 := by
  unfold loginCredentials walletPassword walletEmail
  rw [h]

/-- Claim C10 witness: two secrets differing after character 16. -/
theorem claim_C10_witness :
    jsTake "0123456789abcdefSECRET-A" 16 = jsTake "0123456789abcdefSECRET-B" 16
    ∧ loginCredentials "NAddr1" "0123456789abcdefSECRET-A"
      = loginCredentials "NAddr1" "0123456789abcdefSECRET-B" :=
  ⟨by decide,
    claim_C10_secret_prefix "NAddr1" "0123456789abcdefSECRET-A"
      "0123456789abcdefSECRET-B" (by decide)⟩

end Siwn
